import Mathlib

/-!
Verification of the grid-snapping layout engine (kamikisyo).

Shallow embedding of the core algorithms:
* `division`      — the Ceiling Divider (`src/unnamed/part_001`, lines 81-89);
* `parseTranslate3dString` / `setTranslate` — the Offset Codec
  (`src/unnamed/part_001`, lines 57-59 and 67-74);
* `scanRowAux` / `searchRows` / `searchTop` / `searchMyPlace` — the Placement
  Search (`src/src/components/KAdsorbent.vue`, lines 429-473);
* `runQueue` / `autoOccupyNoOffset` / `mainRender` — the placement pass over
  children without pre-existing offsets (`KAdsorbent.vue`, lines 347-503);
* `dragStep` / `runDrag` — the Drag Controller (`moveElement`,
  `src/unnamed/part_001`, lines 6-60);
* `overlapped` — the element-tracking hit test (`KAdsorbent.vue`, lines 311-326).

JS numbers are modelled as `ℚ` (with `Option ℚ` where `undefined`/`NaN`
can arise); cell keys are the string concatenation of the row and column
indices, exactly as in the source.
-/

namespace Kamikisyo

/-- Truncation toward zero, the rounding used by the JS `%` operator
(`a % b = a - b * trunc (a / b)` for finite operands). -/
def jsTrunc (x : ℚ) : ℤ :=
  if 0 ≤ x then ⌊x⌋ else ⌈x⌉

/-- The JS remainder `a % b` (truncated remainder) for a finite, nonzero
divisor. -/
def jsRem (a b : ℚ) : ℚ := a - b * (jsTrunc (a / b) : ℚ)

/-- Embedding of `division` from `src/unnamed/part_001` lines 81-89 (the
revision imported by `KAdsorbent.vue`): `quotient = Math.floor(a / b)`,
`remainder = a % b`; `a <= 0` returns `1`, otherwise the quotient, bumped
by one when the remainder is nonzero.  The JS source divides floats; the
model divides rationals, which agrees on every finite result for `b ≠ 0`
(`b = 0` produces non-finite JS values outside this model and is not used
by any theorem below). -/
def division (a b : ℚ) : ℚ :=
  let quotient : ℤ := ⌊a / b⌋
  let remainder : ℚ := jsRem a b
  if a ≤ 0 then 1
  else if remainder = 0 then (quotient : ℚ) else (quotient : ℚ) + 1

/-- Numeric value of a nonempty digit string, as `parseInt` computes it on a
`\d+` capture. -/
def natOfDigits (ds : List Char) : Nat :=
  ds.foldl (fun n c => 10 * n + (c.toNat - '0'.toNat)) 0

/-- Strip the literal `lit` from the front of `cs`, or fail. -/
def dropLit : List Char → List Char → Option (List Char)
  | [], cs => some cs
  | _ :: _, [] => none
  | l :: ls, c :: cs => if c = l then dropLit ls cs else none

/-- The maximal run of decimal digits at the front of `cs` (the greedy `\d+`
of the regex; greedy matching is exact here because a digit never matches the
following `p`), together with the remaining characters. -/
def takeDigits : List Char → List Char × List Char
  | [] => ([], [])
  | c :: rest =>
    if c.isDigit then
      let (ds, rs) := takeDigits rest
      (c :: ds, rs)
    else ([], c :: rest)

/-- Attempt to match `translate3d\((\d+)px,\s*(\d+)px,\s*(\d+)px\)` starting
at the first character of `cs`, returning the three captures. -/
def matchAt (cs : List Char) : Option (Nat × Nat × Nat) := do
  let rest0 ← dropLit "translate3d(".data cs
  let (d1, rest1) := takeDigits rest0
  guard (d1 ≠ [])
  let rest2 ← dropLit "px,".data rest1
  let rest3 := rest2.dropWhile Char.isWhitespace
  let (d2, rest4) := takeDigits rest3
  guard (d2 ≠ [])
  let rest5 ← dropLit "px,".data rest4
  let rest6 := rest5.dropWhile Char.isWhitespace
  let (d3, rest7) := takeDigits rest6
  guard (d3 ≠ [])
  let _ ← dropLit "px)".data rest7
  some (natOfDigits d1, natOfDigits d2, natOfDigits d3)

/-- `RegExp.exec` semantics: the leftmost match of the pattern in `cs`. -/
def findMatch : List Char → Option (Nat × Nat × Nat)
  | [] => none
  | c :: rest =>
    match matchAt (c :: rest) with
    | some r => some r
    | none => findMatch rest

/-- Embedding of `parseTranslate3dString` (`src/unnamed/part_001` lines
67-74): runs the regex `translate3d\((\d+)px,\s*(\d+)px,\s*(\d+)px\)` over
the string and returns the three parsed numbers, or `[]` when there is no
match. -/
def parseTranslate3dString (s : String) : List Nat :=
  match findMatch s.data with
  | some (x, y, z) => [x, y, z]
  | none => []

/-- Rendering of a JS number inside a template literal.  Coordinates are
modelled on the integer-valued fragment of JS numbers (every payload this
codec itself produces is an integer, as is every coordinate in the claims);
`none` stands for the `undefined`/`NaN` cascade, which prints `NaN`. -/
def numToStr : Option ℤ → String
  | none => "NaN"
  | some i => toString i

/-- Embedding of `setTranslate` (`src/unnamed/part_001` lines 57-59): the
template literal `translate3d(${xPos}px, ${yPos}px, 0)` — the z slot is the
bare digit `0`, with no `px` suffix. -/
def setTranslate (x y : Option ℤ) : String :=
  "translate3d(" ++ numToStr x ++ "px, " ++ numToStr y ++ "px, 0)"

/-- The cell key `j + '' + k` — plain string concatenation of the row and
column indices (`KAdsorbent.vue` line 442). -/
def key (j k : Nat) : String := toString j ++ toString k

/-- Inner column loop of `searchMyPlace` (`KAdsorbent.vue` lines 440-458),
structurally recursive on `left = cn - k`, the number of columns still to
scan.  Returns `.inl k` when column `k` holds an occupied cell (the code
then restarts the whole search at `[j, k+1]`), and `.inr acc` when the loop
ends — by `break` once `min_rows` free cells have been taken this row, or
by exhausting the columns, in which case *fewer* than `min_rows` cells were
accumulated. -/
def scanRowAux (occ : List String) (j mr : Nat) :
    Nat → Nat → Nat → List String → Sum Nat (List String)
  | 0, _, _, acc => .inr acc
  | left + 1, k, zrs, acc =>
    if occ.contains (key j k) then .inl k
    else if zrs + 1 = mr then .inr (acc ++ [key j k])
    else scanRowAux occ j mr left (k + 1) (zrs + 1) (acc ++ [key j k])

/-- The column loop entered at column `fro1` with column bound `cn` and
`zrs = 0`, as at the top of each row iteration. -/
def scanRow (occ : List String) (j mr cn fro1 : Nat) : Sum Nat (List String) :=
  scanRowAux occ j mr (cn - fro1) fro1 0 []

/-- Outer row loop of `searchMyPlace` (`KAdsorbent.vue` lines 436-471),
structurally recursive on `rleft = rn - j`.  `.inl (j, k)` reports that the
row scan hit an occupied cell at `(j, k)` (the
`return searchMyPlace(min_cols, min_rows, child, [j, k + 1])` restart);
otherwise the loop accumulates `zds` and counts the row as viable
(`zcs += 1`, even when the column loop ran out of columns early), yielding
`.inr (some ((fro0, fro1), zds))` once `zcs` reaches `min_cols`, or
`.inr none` when the rows are exhausted and the element stays unplaced. -/
def searchRows (occ : List String) (mc mr cn fro0 fro1 : Nat) :
    Nat → Nat → Nat → List String →
    Sum (Nat × Nat) (Option ((Nat × Nat) × List String))
  | 0, _, _, _ => .inr none
  | rleft + 1, j, zcs, zds =>
    match scanRow occ j mr cn fro1 with
    | .inl k => .inl (j, k)
    | .inr row =>
      let zds' := zds ++ row
      if zcs + 1 = mc then .inr (some ((fro0, fro1), zds'))
      else searchRows occ mc mr cn fro0 fro1 rleft (j + 1) (zcs + 1) zds'

/-- Restart recursion of `searchMyPlace`: every `.inl (j, k)` re-enters the
search with `fro = [j, k + 1]`.  `cfuel` bounds the number of restarts and
is instrumentation only: `search_terminates` (claim C10) proves `cn + 2`
restarts always suffice, so the `none` (fuel exhausted) branch is
unreachable from `searchMyPlace` below. -/
def searchTop (occ : List String) (mc mr rn cn : Nat) :
    Nat → Nat → Nat → Option (Option ((Nat × Nat) × List String))
  | 0, _, _ => none
  | cfuel + 1, fro0, fro1 =>
    match searchRows occ mc mr cn fro0 fro1 (rn - fro0) fro0 0 [] with
    | .inl (j, k) => searchTop occ mc mr rn cn cfuel j (k + 1)
    | .inr r => some r

/-- Embedding of `searchMyPlace` (`KAdsorbent.vue` lines 429-473) started at
cell `fro = (fro0, fro1)`: `some ((row, col), cells)` when the search
commits a placement with top-left cell `(row, col)`, claiming `cells`, and
`none` when it exhausts the rows leaving the element unplaced. -/
def searchMyPlace (occ : List String) (mc mr rn cn fro0 fro1 : Nat) :
    Option ((Nat × Nat) × List String) :=
  (searchTop occ mc mr rn cn (cn + 2) fro0 fro1).getD none

/-- `corner_stack = new Set([...corner_stack, ...zds])`: insertion-ordered
union with deduplication. -/
def setAdd (occ : List String) (zds : List String) : List String :=
  zds.foldl (fun o s => if o.contains s then o else o ++ [s]) occ

/-- `Array.prototype.pop`: the last element together with the remaining
front of the array. -/
def popLast {α : Type} : List α → Option (α × List α)
  | [] => none
  | [a] => some (a, [])
  | a :: b :: t =>
    match popLast (b :: t) with
    | some (x, r) => some (x, a :: r)
    | none => none

/-- The `cmn.forEach(c => { let pop = mcr.pop()!; searchMyPlace(pop[0],
pop[1], c) })` loop of `autoOccupy` (`KAdsorbent.vue` lines 417-420):
children are visited in collection order while their spans are popped from
the *end* of `mcr`; each search starts at `fro = (0, 0)` over the current
occupancy, and a successful search claims its cells.  Returns the final
occupancy and the placements in child order. -/
def runQueue (rn cn : Nat) : List String → Nat → List (Nat × Nat) →
    List String × List (Option (Nat × Nat))
  | occ, 0, _ => (occ, [])
  | occ, n + 1, mcr =>
    match popLast mcr with
    | none => (occ, [])
    | some ((mc, mr), mcr') =>
      match searchMyPlace occ mc mr rn cn 0 0 with
      | some (pos, zds) =>
        let res := runQueue rn cn (setAdd occ zds) n mcr'
        (res.1, some pos :: res.2)
      | none =>
        let res := runQueue rn cn occ n mcr'
        (res.1, none :: res.2)

/-- `autoOccupy` (`KAdsorbent.vue` lines 347-474) restricted to a pass in
which no child has a pre-existing offset: the scan pushes every child onto
`cmn` and its span `(min_cols, min_rows)` onto `mcr`, then runs the queue
above over the incoming occupancy.  Spans are taken as given — the source
derives them with `division` of the child's pixel box by the pitch, and
claims about `division` are settled against it directly. -/
def autoOccupyNoOffset (rn cn : Nat) (occ0 : List String)
    (spans : List (Nat × Nat)) : List String × List (Option (Nat × Nat)) :=
  runQueue rn cn occ0 spans.length spans

/-- `main_render` (`KAdsorbent.vue` lines 479-503): removes and recreates
the canvas, then calls `render`, which ends in `autoOccupy`.  Neither
function writes to `corner_stack` before the placement pass, so the
occupancy flowing into the pass is whatever the module-level variable held
when the pass began. -/
def mainRender (rn cn : Nat) (cornerStack : List String)
    (spans : List (Nat × Nat)) : List String × List (Option (Nat × Nat)) :=
  autoOccupyNoOffset rn cn cornerStack spans

/-- The pairing skeleton of the placement queue: child identities in
collection order, each matched with `mcr.pop()`
(`KAdsorbent.vue` lines 417-420). -/
def handOut : List Nat → List (Nat × Nat) → List (Nat × (Nat × Nat))
  | [], _ => []
  | c :: rest, mcr =>
    match popLast mcr with
    | some (sp, mcr') => (c, sp) :: handOut rest mcr'
    | none => []

/-- Element-tracking hit test (`KAdsorbent.vue` line 316): the cell at
`(rectX, rectY)` with size `w × h` is highlighted for the tracked box
`(x1, y1)-(x2, y2)` iff
`x2 >= rectX && x1 < rectX + r_width && y2 >= rectY && y1 < rectY + r_height`. -/
def overlapped (x1 y1 x2 y2 rectX rectY w h : ℚ) : Bool :=
  decide (x2 ≥ rectX) && decide (x1 < rectX + w) &&
    decide (y2 ≥ rectY) && decide (y1 < rectY + h)

/-- Modelled from the spec (§4.6 / claim C6 wording): overlap as
`cellRight ≥ trackedLeft AND cellLeft < trackedRight` with the symmetric
vertical condition — the formula the claim asserts the code implements. -/
def overlappedSpec (x1 y1 x2 y2 rectX rectY w h : ℚ) : Bool :=
  decide (rectX + w ≥ x1) && decide (rectX < x2) &&
    decide (rectY + h ≥ y1) && decide (rectY < y2)

/-- Does `needle` occur at the very front of the second list? -/
def startsWithChars : List Char → List Char → Bool
  | [], _ => true
  | _ :: _, [] => false
  | n :: ns, c :: cs => n = c && startsWithChars ns cs

/-- `String.prototype.includes` over character lists. -/
def hasSubChars (needle : List Char) : List Char → Bool
  | [] => needle.isEmpty
  | c :: cs => startsWithChars needle (c :: cs) || hasSubChars needle cs

/-- `tsf.includes('translate3d')` (`src/unnamed/part_001` line 20). -/
def includesTranslate3d (s : String) : Bool :=
  hasSubChars "translate3d".data s.data

/-- State of one `moveElement` closure (`src/unnamed/part_001` lines 6-60):
the element's current `transform` string plus the closure variables.
Coordinates live in `Option ℤ`, the integer-valued fragment of JS numbers
(all payloads the codec produces are integers); `none` is the
`undefined`/`NaN` cascade that arises when `parseTranslate3dString` returns
`[]` and `ns[0]` is read. -/
structure DragState where
  transform : String
  isDragging : Bool
  currentX : Option ℤ
  currentY : Option ℤ
  initialX : Option ℤ
  initialY : Option ℤ
  xOffset : Option ℤ
  yOffset : Option ℤ

/-- Pointer events driving `moveElement`: `mousedown` (recording whether
`e.target === element`), document `mousemove`, and `mouseup`. -/
inductive DragEvent where
  | down (x y : ℤ) (targetIsElement : Bool)
  | move (x y : ℤ)
  | up

/-- JS subtraction lifted through the `undefined`/`NaN` cascade. -/
def osub (a b : Option ℤ) : Option ℤ :=
  match a, b with
  | some x, some y => some (x - y)
  | _, _ => none

/-- One event step of `moveElement` (`src/unnamed/part_001` lines 18-55).
`dragStart` re-reads the element's transform: when it contains
`translate3d` the offsets are re-parsed from it (`ns[0]` of an empty parse
is `undefined`); then the anchor `initial = client - offset` is set and,
when the event target is the element itself, dragging begins.  `drag`
applies only while dragging (the document `mousemove` listener is installed
exactly while a drag is active) and commits `current = client - initial`
through `setTranslate`.  `dragEnd` promotes `current` to the next anchor
baseline and stops dragging. -/
def dragStep (s : DragState) : DragEvent → DragState
  | .down x y tgt =>
    let s1 :=
      if includesTranslate3d s.transform then
        let ns := parseTranslate3dString s.transform
        { s with xOffset := (ns.get? 0).map Int.ofNat,
                 yOffset := (ns.get? 1).map Int.ofNat }
      else s
    let s2 := { s1 with initialX := osub (some x) s1.xOffset,
                        initialY := osub (some y) s1.yOffset }
    if tgt then { s2 with isDragging := true } else s2
  | .move x y =>
    if s.isDragging then
      let cX := osub (some x) s.initialX
      let cY := osub (some y) s.initialY
      { s with currentX := cX, currentY := cY, xOffset := cX, yOffset := cY,
               transform := setTranslate cX cY }
    else s
  | .up =>
    { s with initialX := s.currentX, initialY := s.currentY,
             isDragging := false }

/-- A fresh `moveElement` closure over an element whose inline style holds
`transform` (every closure variable starts at `0`, dragging off). -/
def dragInit (transform : String) : DragState :=
  ⟨transform, false, some 0, some 0, some 0, some 0, some 0, some 0⟩

/-- Folding a list of pointer events through a `moveElement` closure. -/
def runDrag (s : DragState) (es : List DragEvent) : DragState :=
  es.foldl dragStep s

end Kamikisyo

namespace Kamikisyo

/-- C8: for positive length and pitch, `division` returns the unique integer
`n` with `(n-1)*pitch < length ≤ n*pitch` (the least `n` with
`n*pitch ≥ length`). -/
theorem division_is_ceiling (a b : ℚ) (ha : 0 < a) (hb : 0 < b) :
    ∃ n : ℤ, division a b = (n : ℚ) ∧ ((n : ℚ) - 1) * b < a ∧ a ≤ (n : ℚ) * b := by
  have hq : (0 : ℚ) < a / b := div_pos ha hb
  have htr : jsTrunc (a / b) = ⌊a / b⌋ := by simp [jsTrunc, hq.le]
  have hfl : (⌊a / b⌋ : ℚ) * b ≤ a := by
    have h1 : (⌊a / b⌋ : ℚ) ≤ a / b := Int.floor_le (a / b)
    calc (⌊a / b⌋ : ℚ) * b ≤ (a / b) * b := by
          exact mul_le_mul_of_nonneg_right h1 hb.le
      _ = a := div_mul_cancel₀ a hb.ne.symm
  have hcl : a < ((⌊a / b⌋ : ℚ) + 1) * b := by
    have h1 : a / b < (⌊a / b⌋ : ℚ) + 1 := Int.lt_floor_add_one (a / b)
    have h2 := mul_lt_mul_of_pos_right h1 hb
    rwa [div_mul_cancel₀ a hb.ne.symm] at h2
  unfold division jsRem
  rw [htr, if_neg (not_le.mpr ha)]
  by_cases hrem : a - b * ((⌊a / b⌋ : ℤ) : ℚ) = 0
  · refine ⟨⌊a / b⌋, by rw [if_pos hrem], ?_, ?_⟩
    · have : a = b * (⌊a / b⌋ : ℚ) := by linarith
      nlinarith
    · nlinarith
  · refine ⟨⌊a / b⌋ + 1, by rw [if_neg hrem]; push_cast; ring, ?_, ?_⟩
    · have hlt : (⌊a / b⌋ : ℚ) * b < a := lt_of_le_of_ne hfl (by
        intro h
        exact hrem (by linarith [h]))
      push_cast
      nlinarith
    · push_cast
      nlinarith

/-- Witness for `division_is_ceiling` at `(a, b) = (3, 2)`. -/
theorem division_is_ceiling_witness :
    ∃ n : ℤ, division 3 2 = (n : ℚ) ∧ ((n : ℚ) - 1) * 2 < 3 ∧ (3 : ℚ) ≤ (n : ℚ) * 2 :=
  division_is_ceiling 3 2 (by norm_num) (by norm_num)

/-- C9: `division` has no error path.  Called with the non-positive pitch
`-2` and length `5` it does not raise an `InvalidArgument` error; it
returns the numeric value `-2` (a negative "cell count"). -/
theorem division_negative_pitch_returns_value : division 5 (-2) = -2 := by
  have hc : (⌈-((5 : ℚ) / 2)⌉ : ℤ) = -2 := Int.ceil_eq_iff.mpr (by norm_num)
  norm_num [division, jsRem, jsTrunc, hc]

/-- C3: the codec round trip fails on the codec's own output format.
Decoding `translate3d(5px, 7px, 0px)` yields the payload `(5, 7, 0)`, but
re-encoding produces `translate3d(5px, 7px, 0)` (bare `0` in the z slot),
which differs from the input and which the decoder itself rejects — the
decode of any string the encoder produces is `[]` ("no offset"). -/
theorem codec_roundtrip_fails :
    parseTranslate3dString "translate3d(5px, 7px, 0px)" = [5, 7, 0] ∧
    setTranslate (some 5) (some 7) = "translate3d(5px, 7px, 0)" ∧
    setTranslate (some 5) (some 7) ≠ "translate3d(5px, 7px, 0px)" ∧
    parseTranslate3dString (setTranslate (some 5) (some 7)) = [] := by
  refine ⟨?_, ?_, ?_, ?_⟩ <;> decide

/-- An obstruction reported by the column loop lies between the starting
column and the column bound. -/
theorem scanRowAux_inl_bounds (occ : List String) (j mr : Nat) :
    ∀ left k zrs acc k', scanRowAux occ j mr left k zrs acc = .inl k' →
      k ≤ k' ∧ k' < k + left := by
  intro left
  induction left with
  | zero => intro k zrs acc k' h; simp [scanRowAux] at h
  | succ left ih =>
    intro k zrs acc k' h
    rw [scanRowAux] at h
    by_cases hc : occ.contains (key j k)
    · rw [if_pos hc] at h
      cases h
      omega
    · rw [if_neg hc] at h
      by_cases hz : zrs + 1 = mr
      · rw [if_pos hz] at h; cases h
      · rw [if_neg hz] at h
        have := ih (k + 1) (zrs + 1) (acc ++ [key j k]) k' h
        omega

/-- A restart emitted by the row loop names a column at or past the current
starting column and strictly inside the column bound. -/
theorem searchRows_inl_bounds (occ : List String) (mc mr cn fro0 fro1 : Nat) :
    ∀ rleft j zcs zds j' k,
      searchRows occ mc mr cn fro0 fro1 rleft j zcs zds = .inl (j', k) →
      fro1 ≤ k ∧ k < cn := by
  intro rleft
  induction rleft with
  | zero => intro j zcs zds j' k h; simp [searchRows] at h
  | succ rleft ih =>
    intro j zcs zds j' k h
    cases hs : scanRow occ j mr cn fro1 with
    | inl k0 =>
      simp only [searchRows, hs, Sum.inl.injEq, Prod.mk.injEq] at h
      obtain ⟨-, rfl⟩ := h
      have := scanRowAux_inl_bounds occ j mr (cn - fro1) fro1 0 [] k0 hs
      omega
    | inr row =>
      by_cases hz : zcs + 1 = mc
      · simp [searchRows, hs, hz] at h
      · simp only [searchRows, hs, if_neg hz] at h
        exact ih (j + 1) (zcs + 1) (zds ++ row) j' k h

/-- Any restart budget strictly larger than `cn - fro1` lets the restart
recursion run to completion. -/
theorem searchTop_fuel_sufficient (occ : List String) (mc mr rn cn : Nat) :
    ∀ cfuel fro0 fro1, cn + 1 - fro1 < cfuel →
      (searchTop occ mc mr rn cn cfuel fro0 fro1).isSome = true := by
  intro cfuel
  induction cfuel with
  | zero => intro fro0 fro1 h; omega
  | succ cfuel ih =>
    intro fro0 fro1 h
    rw [searchTop]
    cases hs : searchRows occ mc mr cn fro0 fro1 (rn - fro0) fro0 0 [] with
    | inl jk =>
      obtain ⟨j, k⟩ := jk
      have hb := searchRows_inl_bounds occ mc mr cn fro0 fro1
        (rn - fro0) fro0 0 [] j k hs
      exact ih j (k + 1) (by omega)
    | inr r => rfl

/-- C10: the Placement Search terminates on every input.  Each restart
strictly advances the starting column past the obstruction while the column
bound `cn` caps it, so a restart budget of `cn + 2` (the budget
`searchMyPlace` is defined with) is never exhausted, for any occupancy,
span, grid bounds and starting cell. -/
theorem search_terminates (occ : List String) (mc mr rn cn fro0 fro1 : Nat) :
    (searchTop occ mc mr rn cn (cn + 2) fro0 fro1).isSome = true :=
  searchTop_fuel_sufficient occ mc mr rn cn (cn + 2) fro0 fro1 (by omega)

/-- C2: the search can commit a placement whose block exceeds the grid.  On
a 1-by-1 grid whose only cell is occupied, searching a 1-by-1 span restarts
at column 1 and then "succeeds" at top-left `(0, 1)` — claiming no cells at
all — although `col + minCols = 1 + 1 > 1 = cols`. -/
theorem search_escapes_grid :
    searchMyPlace ["00"] 1 1 1 1 0 0 = some ((0, 1), []) ∧ ¬ (1 + 1 ≤ 1) := by
  refine ⟨by decide, by omega⟩

/-- C1: on a 1-by-1 grid, a full pass over two offset-free elements of span
`1 × 1` each claims `{"00"}` for the first and the empty set for the second
(which is still reported placed, at the out-of-grid cell `(0, 1)`): the
union of occupied cells has cardinality `1`, not `Σ span_i = 2`. -/
theorem full_pass_cardinality_violated :
    autoOccupyNoOffset 1 1 [] [(1, 1), (1, 1)] =
      (["00"], [some (0, 0), some (0, 1)]) ∧
    (autoOccupyNoOffset 1 1 [] [(1, 1), (1, 1)]).1.length ≠ 1 * 1 + 1 * 1 := by
  refine ⟨by decide, by decide⟩

/-- C5: no code path clears `corner_stack` between passes.  A first pass
over one `1 × 1` element on a 1-by-1 grid ends with occupancy `{"00"}`; a
second full render pass then starts from that stale occupancy — not from
the empty set — and places the same element at `(0, 1)` instead of
`(0, 0)`. -/
theorem occupancy_not_reset_across_passes :
    (mainRender 1 1 [] [(1, 1)]).1 = ["00"] ∧
    (mainRender 1 1 ["00"] [(1, 1)]).2 = [some (0, 1)] ∧
    (mainRender 1 1 [] [(1, 1)]).2 = [some (0, 0)] := by
  refine ⟨by decide, by decide, by decide⟩

/-- Popping from an array with last element `b` yields `b` and the front. -/
theorem popLast_concat {α : Type} : ∀ (L : List α) (b : α),
    popLast (L ++ [b]) = some (b, L)
  | [], _ => rfl
  | [_], _ => rfl
  | a :: c :: t, b => by
    have ih := popLast_concat (c :: t) b
    simp only [List.cons_append] at ih ⊢
    rw [popLast, ih]

/-- The queue pairs the i-th child (in collection order) with the span of
the mirror child: popping from the end reverses the span list. -/
theorem handOut_zip_reverse (ids : List Nat) :
    ∀ spans : List (Nat × Nat), ids.length = spans.length →
      handOut ids spans = ids.zip spans.reverse := by
  induction ids with
  | nil => intro spans _; simp [handOut]
  | cons i ids ih =>
    intro spans h
    rcases List.eq_nil_or_concat spans with rfl | ⟨L, b, rfl⟩
    · simp at h
    · rw [List.concat_eq_append] at h ⊢
      have hlen : ids.length = L.length := by
        simp only [List.length_cons, List.length_append, List.length_nil] at h
        omega
      rw [handOut, popLast_concat L b, List.reverse_append]
      simp [ih L hlen]

/-- C4 (counterexample): with collected spans `[(1,2), (1,1)]` for children
`0` and `1`, the queue hands `(child 0, span (1,1))` first and
`(child 1, span (1,2))` second — not the reverse of the collection order
with each child keeping its own span, which would be
`[(1, (1,1)), (0, (1,2))]`. -/
theorem handed_pairs_not_reversed_with_own_span :
    handOut [0, 1] [(1, 2), (1, 1)] = [(0, (1, 1)), (1, (1, 2))] ∧
    handOut [0, 1] [(1, 2), (1, 1)] ≠ [(1, (1, 1)), (0, (1, 2))] := by
  refine ⟨by decide, by decide⟩

/-- C4 (amended): children are handed to the Placement Search in their
collection order, but the spans are consumed from the end of the span
stack, so the i-th child is paired with the span collected for the
mirror-position child. -/
theorem queue_pairs_children_with_reversed_spans (spans : List (Nat × Nat)) :
    handOut (List.range spans.length) spans =
      (List.range spans.length).zip spans.reverse :=
  handOut_zip_reverse (List.range spans.length) spans (by simp)

/-- C6 (counterexample): a tracked box `[0,10] × [0,10]` whose right edge is
flush with the boundary at `x = 10` *is* reported as overlapping the next
cell `[10,20] × [0,10]` by the code, while the formula the claim states
(`cellRight ≥ trackedLeft AND cellLeft < trackedRight`, and vertically)
reports no overlap there. -/
theorem overlap_flush_cell_counterexample :
    overlapped 0 0 10 10 10 0 10 10 = true ∧
    overlappedSpec 0 0 10 10 10 0 10 10 = false := by
  constructor
  · simp only [overlapped, Bool.and_eq_true, decide_eq_true_eq]
    norm_num
  · simp only [overlappedSpec, Bool.and_eq_false_iff, decide_eq_false_iff_not, not_lt, not_le]
    norm_num

/-- C6 (amended): the code highlights a cell iff
`trackedRight ≥ cellLeft AND trackedLeft < cellRight` and symmetrically
`trackedBottom ≥ cellTop AND trackedTop < cellBottom` — the half-open side
is the left/top one, so a tracked element flush against a cell boundary
*does* overlap the next cell past that boundary. -/
theorem overlap_condition (x1 y1 x2 y2 rectX rectY w h : ℚ) :
    overlapped x1 y1 x2 y2 rectX rectY w h = true ↔
      (x2 ≥ rectX ∧ x1 < rectX + w ∧ y2 ≥ rectY ∧ y1 < rectY + h) := by
  simp [overlapped, and_assoc]

/-- C7: the first drag behaves as claimed — pointer-down at `(50, 50)` on an
element at offset `(0, 0)` and a move to `(60, 70)` commits offset
`(10, 20)` — but after pointer-up, the next pointer-down re-parses the
committed transform `translate3d(10px, 20px, 0)`, whose bare-`0` z slot the
parser rejects, so the anchor becomes `undefined` and the move to
`(60, 90)` commits `translate3d(NaNpx, NaNpx, 0)` instead of the claimed
offset `(10, 40)`. -/
theorem drag_second_baseline_breaks :
    (runDrag (dragInit "") [.down 50 50 true, .move 60 70]).transform =
      "translate3d(10px, 20px, 0)" ∧
    (runDrag (dragInit "")
        [.down 50 50 true, .move 60 70, .up,
         .down 60 70 true, .move 60 90]).transform =
      "translate3d(NaNpx, NaNpx, 0)" ∧
    "translate3d(NaNpx, NaNpx, 0)" ≠ setTranslate (some 10) (some 40) := by
  refine ⟨by decide, by decide, by decide⟩

end Kamikisyo
